import Mathlib

/-!
Verification of the seed-cache subsystem of `src/quantum_cache.c`
(`quantum_cache_init`, `quantum_cache_destroy`, `quantum_cache_get_random`,
`quantum_cache_preload`, `compute_quantum_phase`).

Modelling conventions, fixed once for the whole file:

* Machine `uint64_t` values are natural numbers; every arithmetic step that
  wraps in C carries an explicit `% 2 ^ 64`.  Shifts and bitwise operations
  are `Nat.shiftLeft` / `Nat.shiftRight` / `Nat.lor` / `Nat.xor`, exactly as
  in the source.
* The C `double` arithmetic of the read path is modelled twice, and every
  theorem names the reading it uses.  `quantum_cache_get_random` is the
  exact-rational reading of the literal source expression
  `seeds[index] / UINT64_MAX` (with `UINT64_MAX = 2 ^ 64 - 1`, the value of
  the C constant), adequate for range, fallback-constant and structural
  claims.  `quantum_cache_get_random_ieee` is the exact IEEE double
  reading: each `uint64_t` operand is first rounded to 53 significant bits
  by round-to-nearest-even (`fl53`), under which `UINT64_MAX` becomes
  `2 ^ 64` and the returned double is exactly the rational
  `fl53 seed / 2 ^ 64`; that reading is authoritative for claims about the
  exact returned value.
* `compute_quantum_phase` returns a rational multiple of π.  Because `π`
  itself is not a computable real, the function returns the rational
  coefficient of π: the C expression `random_value * 2.0 * M_PI` is modelled
  as the coefficient `2 * random_value`, and the fallback `M_PI` as the
  coefficient `1`.
* The process-global pointer `global_cache` is the state, of type
  `Option quantum_cache`; `none` is the NULL pointer.
* Environment nondeterminism (the `drand48` stream used by
  `quantum_cache_init`, the per-iteration `clock_gettime` samples used by
  `quantum_cache_preload`, and the success of `malloc` /
  `pthread_rwlock_init`) is packaged in an explicit `CacheEnv` parameter.
* The `pthread_rwlock_t` field is not modelled: each operation is embedded as
  the state transformer it performs while holding the lock as the source
  prescribes; lock acquisition itself has no sequential content.
* A C string argument is `Option (List ℕ)`: `none` is a NULL pointer,
  `some bytes` a NUL-terminated string with the given (NUL-free) bytes; the
  `(uint8_t)` cast of a byte is an explicit `% 2 ^ 8`.
-/

/-- The `struct quantum_cache` of the source: the seed array, the `size`
field, and the `index` (cursor) field.  The rwlock member is not modelled. -/
structure quantum_cache where
  seeds : List ℕ
  size : ℕ
  index : ℕ
deriving DecidableEq, Repr

/-- The `global_cache` pointer: `none` models NULL. -/
abbrev CacheState := Option quantum_cache

/-- The environment a call runs in: the per-slot value produced by the
`drand48()`-based seeding of `quantum_cache_init` (already cast to
`uint64_t`), the per-iteration `clock_gettime` sample of
`quantum_cache_preload` as a pair (tv_sec, tv_nsec), and the success of the
two `malloc` calls and of `pthread_rwlock_init`. -/
structure CacheEnv where
  seedGen : ℕ → ℕ
  clock : ℕ → ℕ × ℕ
  mallocCacheOk : Bool
  mallocSeedsOk : Bool
  lockOk : Bool

/-- `quantum_cache_init`.  Mirrors the source line by line: the size guard
returns -1 leaving the state untouched; a failed `malloc` of the struct or
of the seed array, or a failed `pthread_rwlock_init`, leaves `global_cache`
set to NULL and returns -2 / -2 / -3; on success the seed array holds
`cache_size` values from the process-local generator, `size` is
`cache_size` and `index` is 0. -/
def quantum_cache_init (env : CacheEnv) (cache_size : ℕ) (s : CacheState) :
    Int × CacheState :=
  if cache_size = 0 ∨ cache_size > 10000000 then
    (-1, s)
  else if env.mallocCacheOk = false then
    (-2, none)
  else if env.mallocSeedsOk = false then
    (-2, none)
  else if env.lockOk = false then
    (-3, none)
  else
    (0, some { seeds := (List.range cache_size).map fun i => env.seedGen i % 2 ^ 64
               size := cache_size
               index := 0 })

/-- `quantum_cache_destroy`: frees the cache (if any) and resets the global
pointer to NULL; a no-op on an absent cache. -/
def quantum_cache_destroy (_s : CacheState) : CacheState :=
  none

/-- `quantum_cache_get_random`: the fallback 0.5 on an absent cache or an
out-of-range index, otherwise the seed at `index` divided by `UINT64_MAX`
(exact rational arithmetic on the source expression). -/
def quantum_cache_get_random (s : CacheState) (index : ℕ) : ℚ :=
  match s with
  | none => 1 / 2
  | some c =>
    if index ≥ c.size then 1 / 2
    else (c.seeds.getD index 0 : ℚ) / (2 ^ 64 - 1)

/-- The API-key folding loop of `quantum_cache_preload`:
`seed_mix = (seed_mix << 8) | (uint8_t)api_key[i]` over every byte of the
key, on `uint64_t`. -/
def key_fold (key : List ℕ) : ℕ :=
  key.foldl (fun seed_mix b => ((seed_mix <<< 8) % 2 ^ 64) ||| (b % 2 ^ 8)) 0

/-- One iteration body of the seeding loop of `quantum_cache_preload`:
`mixed_entropy = nsec ^ sec ^ i ^ seed_mix`, then the first
linear-congruential step, the xor-fold of the high half, and the second
linear-congruential step, all on `uint64_t`. -/
def mix_entropy (seed_mix sec nsec i : ℕ) : ℕ :=
  let e0 := ((nsec % 2 ^ 64) ^^^ (sec % 2 ^ 64)) ^^^ (i % 2 ^ 64) ^^^ seed_mix
  let e1 := (e0 * 1103515245 + 12345) % 2 ^ 64
  let e2 := e1 ^^^ (e1 >>> 32)
  (e2 * 1664525 + 1013904223) % 2 ^ 64

/-- The write loop `for (i = 0; i < n; i++) seeds[i] = f i` as an
element-wise rebuild of the seed list, starting at position `i`. -/
def writeUpto (f : ℕ → ℕ) (n : ℕ) : ℕ → List ℕ → List ℕ
  | _, [] => []
  | i, v :: rest => (if i < n then f i else v) :: writeUpto f n (i + 1) rest

/-- `quantum_cache_preload`.  Mirrors the source: the argument guard
`!api_key || count == 0 || count > 10000000` returns -1 unchanged (note the
guard checks the key for NULL, not for emptiness); an absent cache is first
created with `quantum_cache_init count`, whose failure propagates; then the
key is folded into `seed_mix` and every index `i < count` with
`i < global_cache->size` is overwritten with the mixed entropy of the
`i`-th clock sample. -/
def quantum_cache_preload (env : CacheEnv) (api_key : Option (List ℕ))
    (count : ℕ) (s : CacheState) : Int × CacheState :=
  match api_key with
  | none => (-1, s)
  | some key =>
    if count = 0 ∨ count > 10000000 then (-1, s)
    else
      let step := match s with
                  | none => quantum_cache_init env count none
                  | some c => ((0 : Int), some c)
      if step.1 ≠ 0 then step
      else
        match step.2 with
        | none => (step.1, none)
        | some c =>
          let seed_mix := key_fold key
          let f := fun i =>
            mix_entropy seed_mix (env.clock i).1 (env.clock i).2 i
          (0, some { c with seeds := writeUpto f (min count c.size) 0 c.seeds })

/-- `compute_quantum_phase`, returning the rational coefficient of π: the
fallback `M_PI` is the coefficient 1; otherwise
`combined = circuit_id ^ packet_hash` is rotated by 32 bits via
`(combined << 32) | (combined >> 32)` on `uint64_t`, reduced
`mod global_cache->size`, and the looked-up value is scaled by
`2.0 * M_PI`, i.e. the coefficient is `2 * random_value`. -/
def compute_quantum_phase (s : CacheState) (circuit_id packet_hash : ℕ) : ℚ :=
  match s with
  | none => 1
  | some c =>
    let combined := (circuit_id % 2 ^ 64) ^^^ (packet_hash % 2 ^ 64)
    let rotated := ((combined <<< 32) % 2 ^ 64) ||| (combined >>> 32)
    let index := rotated % c.size
    2 * quantum_cache_get_random s index

/-! ### Spec-side definitions

These follow the wording of the specification, to be compared with the
definitions embedded from the source. -/

/-- Modelled from the spec, §4.4: rotate a 64-bit value by 32 bits by
swapping its high and low 32-bit halves, written arithmetically. -/
def spec_rotate32 (x : ℕ) : ℕ :=
  (x % 2 ^ 32) * 2 ^ 32 + x / 2 ^ 32

/-- Modelled from the spec, §4.4: the cache index used by phase derivation,
`index = rotate32 (circuitId XOR packetHash) mod capacity`. -/
def spec_phase_index (circuit_id packet_hash capacity : ℕ) : ℕ :=
  spec_rotate32 (circuit_id ^^^ packet_hash) % capacity

/-- Modelled from the spec, §4.2 step 1: fold every byte of the key into a
64-bit accumulator by shifting left 8 bits and OR-ing in the next byte,
wrapping on overflow. -/
def spec_key_accumulator (key : List ℕ) : ℕ :=
  key.foldl (fun acc b => ((acc <<< 8) % 2 ^ 64) ||| (b % 2 ^ 8)) 0

/-- Modelled from the spec, §4.2 steps 2-7: the entropy value stored at
index `i`, from the sampled clock (seconds, nanoseconds), the index and the
key accumulator `K`:
`E = nanoseconds XOR seconds XOR i XOR K`, then
`E = (E * 1103515245 + 12345) mod 2^64`, then `E = E XOR (E >> 32)`, then
`E = (E * 1664525 + 1013904223) mod 2^64` (all quantities 64-bit). -/
def spec_entropy (key : List ℕ) (sec nsec i : ℕ) : ℕ :=
  let K := spec_key_accumulator key
  let E := ((nsec % 2 ^ 64) ^^^ (sec % 2 ^ 64)) ^^^ (i % 2 ^ 64) ^^^ K
  let E := (E * 1103515245 + 12345) % 2 ^ 64
  let E := E ^^^ (E >>> 32)
  (E * 1664525 + 1013904223) % 2 ^ 64

/-! ### Reachable states -/

/-- The states `global_cache` can be driven to by any sequence of calls.
`quantum_cache_get_random` and `compute_quantum_phase` never write the
state (they are pure functions of it in this embedding), so the generators
are creation, destruction and population, each under an arbitrary
environment and arbitrary arguments. -/
inductive CacheReachable : CacheState → Prop
  | initial : CacheReachable none
  | step_create (s : CacheState) (env : CacheEnv) (n : ℕ) :
      CacheReachable s → CacheReachable (quantum_cache_init env n s).2
  | step_destroy (s : CacheState) :
      CacheReachable s → CacheReachable (quantum_cache_destroy s)
  | step_populate (s : CacheState) (env : CacheEnv) (key : Option (List ℕ))
      (count : ℕ) :
      CacheReachable s → CacheReachable (quantum_cache_preload env key count s).2

/-! ### Helper lemmas -/

theorem writeUpto_length (f : ℕ → ℕ) (n : ℕ) :
    ∀ (i : ℕ) (l : List ℕ), (writeUpto f n i l).length = l.length := by
  intro i l
  induction l generalizing i with
  | nil => rfl
  | cons v rest ih => simp [writeUpto, ih]

theorem writeUpto_getD (f : ℕ → ℕ) (n : ℕ) :
    ∀ (i j : ℕ) (l : List ℕ), j < l.length →
      (writeUpto f n i l).getD j 0 =
        if i + j < n then f (i + j) else l.getD j 0 := by
  intro i j l
  induction l generalizing i j with
  | nil => intro h; simp at h
  | cons v rest ih =>
    intro h
    cases j with
    | zero => simp [writeUpto]
    | succ j =>
      have hj : j < rest.length := by simpa using h
      have := ih (i + 1) j hj
      simp only [writeUpto, List.getD_cons_succ, this]
      have harith : i + 1 + j = i + (j + 1) := by omega
      rw [harith]

/-- The source's 32-bit rotation `(x << 32) | (x >> 32)` on `uint64_t`
agrees with the spec's swap of the two 32-bit halves. -/
theorem rotate32_eq_spec (x : ℕ) (hx : x < 2 ^ 64) :
    ((x <<< 32) % 2 ^ 64) ||| (x >>> 32) = spec_rotate32 x := by
  have h1 : (x <<< 32) % 2 ^ 64 = (x % 2 ^ 32) * 2 ^ 32 := by
    rw [Nat.shiftLeft_eq]
    have : (2 : ℕ) ^ 64 = 2 ^ 32 * 2 ^ 32 := by norm_num
    rw [this, Nat.mul_mod_mul_right]
  have h2 : x >>> 32 = x / 2 ^ 32 := Nat.shiftRight_eq_div_pow x 32
  have hdiv : x / 2 ^ 32 < 2 ^ 32 := by
    apply Nat.div_lt_of_lt_mul
    calc x < 2 ^ 64 := hx
    _ = 2 ^ 32 * 2 ^ 32 := by norm_num
  rw [h1, h2, spec_rotate32]
  have h3 : (2 : ℕ) ^ 32 * (x % 2 ^ 32) + x / 2 ^ 32 =
      2 ^ 32 * (x % 2 ^ 32) ||| x / 2 ^ 32 :=
    Nat.mul_add_lt_is_or hdiv _
  calc (x % 2 ^ 32) * 2 ^ 32 ||| x / 2 ^ 32
      = 2 ^ 32 * (x % 2 ^ 32) ||| x / 2 ^ 32 := by rw [Nat.mul_comm]
    _ = 2 ^ 32 * (x % 2 ^ 32) + x / 2 ^ 32 := (h3).symm
    _ = (x % 2 ^ 32) * 2 ^ 32 + x / 2 ^ 32 := by rw [Nat.mul_comm]

/-- Case analysis of `quantum_cache_init`: it either fails leaving the state
unchanged or NULL, or succeeds with the freshly generated cache. -/
theorem quantum_cache_init_shape (env : CacheEnv) (n : ℕ) (s : CacheState) :
    ((quantum_cache_init env n s).1 ≠ 0 ∧
      ((quantum_cache_init env n s).2 = s ∨ (quantum_cache_init env n s).2 = none)) ∨
    (1 ≤ n ∧ n ≤ 10000000 ∧
      quantum_cache_init env n s =
        (0, some ⟨(List.range n).map fun i => env.seedGen i % 2 ^ 64, n, 0⟩)) := by
  unfold quantum_cache_init
  by_cases h1 : n = 0 ∨ n > 10000000
  · rw [if_pos h1]; exact Or.inl ⟨by norm_num, Or.inl rfl⟩
  · rw [if_neg h1]
    by_cases h2 : env.mallocCacheOk = false
    · rw [if_pos h2]; exact Or.inl ⟨by norm_num, Or.inr rfl⟩
    · rw [if_neg h2]
      by_cases h3 : env.mallocSeedsOk = false
      · rw [if_pos h3]; exact Or.inl ⟨by norm_num, Or.inr rfl⟩
      · rw [if_neg h3]
        by_cases h4 : env.lockOk = false
        · rw [if_pos h4]; exact Or.inl ⟨by norm_num, Or.inr rfl⟩
        · rw [if_neg h4]
          push_neg at h1
          exact Or.inr ⟨by omega, by omega, rfl⟩

/-- With a size inside `[1, 10_000_000]`, `quantum_cache_init` never reports
the invalid-size error -1. -/
theorem quantum_cache_init_ne_neg_one (env : CacheEnv) (n : ℕ) (s : CacheState)
    (h1 : 1 ≤ n) (h2 : n ≤ 10000000) :
    (quantum_cache_init env n s).1 ≠ -1 := by
  unfold quantum_cache_init
  rw [if_neg (show ¬(n = 0 ∨ n > 10000000) by omega)]
  by_cases h3 : env.mallocCacheOk = false
  · rw [if_pos h3]; norm_num
  · rw [if_neg h3]
    by_cases h4 : env.mallocSeedsOk = false
    · rw [if_pos h4]; norm_num
    · rw [if_neg h4]
      by_cases h5 : env.lockOk = false
      · rw [if_pos h5]; norm_num
      · rw [if_neg h5]; norm_num

/-- `quantum_cache_preload` on a present cache with valid arguments: the
result is exactly the rewrite of the first `min count size` seed slots. -/
theorem preload_present_eq (env : CacheEnv) (key : List ℕ) (count : ℕ)
    (c : quantum_cache) (h1 : 1 ≤ count) (h2 : count ≤ 10000000) :
    quantum_cache_preload env (some key) count (some c) =
      (0, some { c with
        seeds := writeUpto
          (fun i => mix_entropy (key_fold key) (env.clock i).1 (env.clock i).2 i)
          (min count c.size) 0 c.seeds }) := by
  simp only [quantum_cache_preload,
    if_neg (show ¬(count = 0 ∨ count > 10000000) by omega)]
  norm_num

/-- The data-model invariant of the spec (§3) together with the cursor
value: the capacity bounds, the seed-store length, and a zero cursor. -/
def cache_invariant (c : quantum_cache) : Prop :=
  1 ≤ c.size ∧ c.size ≤ 10000000 ∧ c.seeds.length = c.size ∧ c.index = 0

theorem invariant_init (env : CacheEnv) (n : ℕ) (s : CacheState)
    (h : ∀ c, s = some c → cache_invariant c) :
    ∀ c', (quantum_cache_init env n s).2 = some c' → cache_invariant c' := by
  intro c' hc'
  rcases quantum_cache_init_shape env n s with ⟨_, hs | hs⟩ | ⟨h1, h2, heq⟩
  · rw [hs] at hc'; exact h c' hc'
  · rw [hs] at hc'; cases hc'
  · rw [heq] at hc'
    obtain rfl := Option.some.inj hc'
    exact ⟨h1, h2, by simp, rfl⟩

theorem invariant_preload (env : CacheEnv) (k : Option (List ℕ)) (count : ℕ)
    (s : CacheState) (h : ∀ c, s = some c → cache_invariant c) :
    ∀ c', (quantum_cache_preload env k count s).2 = some c' → cache_invariant c' := by
  intro c' hc'
  cases k with
  | none => exact h c' hc'
  | some key =>
    by_cases hcnt : count = 0 ∨ count > 10000000
    · simp only [quantum_cache_preload, if_pos hcnt] at hc'
      exact h c' hc'
    · cases s with
      | some c =>
        push_neg at hcnt
        rw [preload_present_eq env key count c (by omega) (by omega)] at hc'
        obtain rfl := Option.some.inj hc'
        have hcinv := h c rfl
        exact ⟨hcinv.1, hcinv.2.1, by simp [writeUpto_length, hcinv.2.2.1],
          hcinv.2.2.2⟩
      | none =>
        simp only [quantum_cache_preload, if_neg hcnt] at hc'
        rcases quantum_cache_init_shape env count none with
          ⟨hne, hs | hs⟩ | ⟨h1, h2, heq⟩
        · rw [if_pos hne, hs] at hc'; cases hc'
        · rw [if_pos hne, hs] at hc'; cases hc'
        · rw [heq] at hc'
          simp only [ne_eq, not_true_eq_false, if_false, reduceIte] at hc'
          obtain rfl := Option.some.inj hc'
          exact ⟨h1, h2, by simp [writeUpto_length], rfl⟩

/-- Every reachable present cache satisfies the data-model invariant. -/
theorem reachable_invariant (s : CacheState) (h : CacheReachable s) :
    ∀ c, s = some c → cache_invariant c := by
  induction h with
  | initial => intro c hc; cases hc
  | step_create s env n _ ih => exact invariant_init env n s ih
  | step_destroy s _ _ => intro c hc; cases hc
  | step_populate s env key count _ ih => exact invariant_preload env key count s ih

/-! ### Concrete inputs for witnesses and counterexamples -/

/-- A fully successful environment with zero generator and zero clock. -/
def env0 : CacheEnv :=
  { seedGen := fun _ => 0
    clock := fun _ => (0, 0)
    mallocCacheOk := true
    mallocSeedsOk := true
    lockOk := true }

/-- A one-slot cache holding the maximal 64-bit seed `UINT64_MAX`. -/
def cacheMax : quantum_cache := ⟨[2 ^ 64 - 1], 1, 0⟩

/-- A one-slot cache holding the seed 1. -/
def cacheOne : quantum_cache := ⟨[1], 1, 0⟩

/-! ### The claims -/

/-- Claim C1, counterexample: the claim says `getRandom` always returns a
value in `[0.0, 1.0)`; but on a cache whose stored seed is `UINT64_MAX`
(a legitimate seed value — the spec's own data model leaves seed values
unconstrained), `getRandom 0` returns `UINT64_MAX / UINT64_MAX = 1`,
which is not `< 1`. -/
theorem c1_getRandom_lt_one_cx :
    ¬ quantum_cache_get_random (some cacheMax) 0 < 1 := by
  have h : quantum_cache_get_random (some cacheMax) 0 = 1 := by
    simp only [quantum_cache_get_random, cacheMax]
    norm_num
  rw [h]
  exact lt_irrefl 1

/-- Claim C1 (amended): for every cache state whose stored seeds are 64-bit
values (as every reachable state's are) and every index, `getRandom`
returns a value in the closed interval `[0.0, 1.0]`; in particular this
holds after any successful `create`.  The right endpoint 1 is attained
exactly when the addressed seed is `UINT64_MAX`. -/
theorem c1_getRandom_closed_unit_interval (s : CacheState) (index : ℕ)
    (h : ∀ c, s = some c → ∀ x ∈ c.seeds, x < 2 ^ 64) :
    0 ≤ quantum_cache_get_random s index ∧
      quantum_cache_get_random s index ≤ 1 := by
  cases s with
  | none => norm_num [quantum_cache_get_random]
  | some c =>
    by_cases hi : index ≥ c.size
    · norm_num [quantum_cache_get_random, hi]
    · simp only [quantum_cache_get_random, if_neg hi]
      have hv : c.seeds.getD index 0 < 2 ^ 64 := by
        by_cases hl : index < c.seeds.length
        · rw [List.getD_eq_getElem c.seeds 0 hl]
          exact h c rfl _ (List.getElem_mem hl)
        · rw [List.getD_eq_default c.seeds 0 (by omega)]
          norm_num
      constructor
      · apply div_nonneg (by positivity)
        norm_num
      · rw [div_le_one (by norm_num)]
        have : (c.seeds.getD index 0 : ℚ) ≤ ((2 ^ 64 - 1 : ℕ) : ℚ) := by
          exact_mod_cast Nat.le_of_lt_succ (by omega)
        calc (c.seeds.getD index 0 : ℚ) ≤ ((2 ^ 64 - 1 : ℕ) : ℚ) := this
          _ = (2 : ℚ) ^ 64 - 1 := by push_cast; norm_num

/-- Witness for the amended C1 at a concrete state. -/
theorem c1_getRandom_closed_unit_interval_w :
    0 ≤ quantum_cache_get_random (some cacheOne) 0 ∧
      quantum_cache_get_random (some cacheOne) 0 ≤ 1 :=
  c1_getRandom_closed_unit_interval (some cacheOne) 0 (by
    intro c hc
    cases hc
    decide)

/-- Claim C2, counterexample: the claim says `populate` with an empty
(zero-length) key fails with an invalid-argument condition and, with no
cache present, leaves no cache created.  The source's guard checks the key
only for NULL (`!api_key`), so the empty key passes validation: starting
from the absent state, `populate(key="", count=1)` returns success (0) and
a cache is present afterwards. -/
theorem c2_empty_key_rejected_cx :
    (quantum_cache_preload env0 (some []) 1 none).1 = 0 ∧
      (quantum_cache_preload env0 (some []) 1 none).2 ≠ none := by
  decide

/-- Claim C2 (amended): `populate` with a missing (NULL) key fails with the
invalid-argument code -1 and makes no changes to the state; an empty
(zero-length) key, by contrast, is not rejected by the argument check:
with any count in `[1, 10_000_000]` the call never reports the
invalid-argument condition. -/
theorem c2_null_key_rejected :
    (∀ (env : CacheEnv) (count : ℕ) (s : CacheState),
        quantum_cache_preload env none count s = (-1, s)) ∧
    (∀ (env : CacheEnv) (count : ℕ) (s : CacheState),
        1 ≤ count → count ≤ 10000000 →
        (quantum_cache_preload env (some []) count s).1 ≠ -1) := by
  constructor
  · intro env count s; rfl
  · intro env count s h1 h2
    cases s with
    | some c =>
      rw [preload_present_eq env [] count c h1 h2]
      norm_num
    | none =>
      simp only [quantum_cache_preload,
        if_neg (show ¬(count = 0 ∨ count > 10000000) by omega)]
      rcases quantum_cache_init_shape env count none with
        ⟨hne, _⟩ | ⟨_, _, heq⟩
      · rw [if_pos hne]
        exact quantum_cache_init_ne_neg_one env count none h1 h2
      · rw [heq]
        norm_num

/-- Witness for the amended C2 at concrete inputs. -/
theorem c2_null_key_rejected_w :
    quantum_cache_preload env0 none 1 none = (-1, none) ∧
      (quantum_cache_preload env0 (some []) 1 none).1 ≠ -1 :=
  ⟨c2_null_key_rejected.1 env0 1 none,
   c2_null_key_rejected.2 env0 1 none (by norm_num) (by norm_num)⟩

/-- Round `n` to the nearest multiple of `2 ^ s`, breaking a tie towards
the even multiple: the IEEE round-to-nearest-even rule at granularity
`2 ^ s`. -/
def round_pow (s n : ℕ) : ℕ :=
  let q := n / 2 ^ s
  let r := n % 2 ^ s
  if 2 * r < 2 ^ s then q * 2 ^ s
  else if 2 ^ s < 2 * r then (q + 1) * 2 ^ s
  else if q % 2 = 0 then q * 2 ^ s else (q + 1) * 2 ^ s

/-- The exact value of the C conversion `(double)n` for `n < 2 ^ 64`: `n`
rounded to 53 significant bits by round-to-nearest-even.  The doubles in
the binade `[2 ^ k, 2 ^ (k + 1))` are the multiples of `2 ^ (k - 52)`, so
the rounding granularity is selected by the binade of `n`; every
`n < 2 ^ 53` converts exactly. -/
def fl53 (n : ℕ) : ℕ :=
  if n < 2 ^ 53 then n
  else if n < 2 ^ 54 then round_pow 1 n
  else if n < 2 ^ 55 then round_pow 2 n
  else if n < 2 ^ 56 then round_pow 3 n
  else if n < 2 ^ 57 then round_pow 4 n
  else if n < 2 ^ 58 then round_pow 5 n
  else if n < 2 ^ 59 then round_pow 6 n
  else if n < 2 ^ 60 then round_pow 7 n
  else if n < 2 ^ 61 then round_pow 8 n
  else if n < 2 ^ 62 then round_pow 9 n
  else if n < 2 ^ 63 then round_pow 10 n
  else round_pow 11 n

/-- `(double)UINT64_MAX` rounds up to `2 ^ 64`: in IEEE arithmetic the
program divides by `2 ^ 64`, not by the integer value `2 ^ 64 - 1` of the
constant. -/
theorem fl53_uint64_max : fl53 (2 ^ 64 - 1) = 2 ^ 64 := by decide

/-- `quantum_cache_get_random` under exact IEEE double semantics.  The
source computes `(double)seeds[index] / UINT64_MAX`: the numerator
converts to `fl53 seed`, the denominator to `fl53 (2 ^ 64 - 1) = 2 ^ 64`
(`fl53_uint64_max`), and the quotient of a value with at most 53
significant bits by `2 ^ 64` is exactly representable (a plain exponent
shift, far above the subnormal range), so the returned double is exactly
the rational `fl53 seed / 2 ^ 64`. -/
def quantum_cache_get_random_ieee (s : CacheState) (index : ℕ) : ℚ :=
  match s with
  | none => 1 / 2
  | some c =>
    if index ≥ c.size then 1 / 2
    else (fl53 (c.seeds.getD index 0) : ℚ) / 2 ^ 64

/-- A one-slot cache holding the seed `2 ^ 53 + 1`, the smallest seed the
double conversion rounds. -/
def cacheTie : quantum_cache := ⟨[2 ^ 53 + 1], 1, 0⟩

/-- Claim C3, counterexample: the claim says `getRandom` returns the ratio
`seeds[index] / 2^64` of the stored 64-bit seed; but the conversion of the
seed to `double` rounds it to 53 significant bits first, so on a cache
whose stored seed is `2^53 + 1` the program returns `2^53 / 2^64` (the
halfway case rounds to the even neighbour `2^53`), which is not
`(2^53 + 1) / 2^64`. -/
theorem c3_rounding_cx :
    quantum_cache_get_random_ieee (some cacheTie) 0 ≠
      ((2 ^ 53 + 1 : ℕ) : ℚ) / 2 ^ 64 := by
  have hfl : fl53 (2 ^ 53 + 1) = 2 ^ 53 := by decide
  have hv : quantum_cache_get_random_ieee (some cacheTie) 0 =
      (fl53 (2 ^ 53 + 1) : ℚ) / 2 ^ 64 := by
    simp only [quantum_cache_get_random_ieee, cacheTie, List.getD_cons_zero]
    rw [if_neg (by norm_num)]
  rw [hv, hfl]
  push_cast
  norm_num

/-- Claim C3 (amended): under exact IEEE double semantics, for every
present cache and every index below the size field, `getRandom` returns
`fl53 (seeds[index]) / 2 ^ 64` — the stored 64-bit seed rounded to double
precision (53 significant bits, ties to even) and divided by `2 ^ 64`;
in particular it returns exactly the claimed ratio `seeds[index] / 2 ^ 64`
whenever the stored seed has at most 53 significant bits
(`seeds[index] < 2 ^ 53`). -/
theorem c3_getRandom_rounded_ratio (c : quantum_cache) (index : ℕ)
    (h : index < c.size) :
    quantum_cache_get_random_ieee (some c) index =
      (fl53 (c.seeds.getD index 0) : ℚ) / 2 ^ 64 ∧
    (c.seeds.getD index 0 < 2 ^ 53 →
      quantum_cache_get_random_ieee (some c) index =
        (c.seeds.getD index 0 : ℚ) / 2 ^ 64) := by
  have h1 : quantum_cache_get_random_ieee (some c) index =
      (fl53 (c.seeds.getD index 0) : ℚ) / 2 ^ 64 := by
    simp only [quantum_cache_get_random_ieee,
      if_neg (show ¬ index ≥ c.size by omega)]
  refine ⟨h1, fun hs => ?_⟩
  have h2 : fl53 (c.seeds.getD index 0) = c.seeds.getD index 0 := by
    unfold fl53
    rw [if_pos hs]
  rw [h1, h2]

/-- Witness for the amended C3 at a concrete cache, with the inner
small-seed hypothesis also discharged. -/
theorem c3_getRandom_rounded_ratio_w :
    quantum_cache_get_random_ieee (some cacheOne) 0 =
      (fl53 (cacheOne.seeds.getD 0 0) : ℚ) / 2 ^ 64 ∧
    quantum_cache_get_random_ieee (some cacheOne) 0 =
      (cacheOne.seeds.getD 0 0 : ℚ) / 2 ^ 64 :=
  ⟨(c3_getRandom_rounded_ratio cacheOne 0 (by decide)).1,
   (c3_getRandom_rounded_ratio cacheOne 0 (by decide)).2 (by decide)⟩

/-- Claim C4: the two read operations never signal an error.  `getRandom`
returns exactly 0.5 on an absent cache and on any index at or beyond the
size field, and `computePhase` on an absent cache returns exactly π
(coefficient 1 of π in this embedding), for every input pair. -/
theorem c4_fallback_constants :
    (∀ index, quantum_cache_get_random none index = 1 / 2) ∧
    (∀ (c : quantum_cache) (index : ℕ), c.size ≤ index →
      quantum_cache_get_random (some c) index = 1 / 2) ∧
    (∀ circuit_id packet_hash : ℕ,
      compute_quantum_phase none circuit_id packet_hash = 1) := by
  refine ⟨fun _ => rfl, fun c index h => ?_, fun _ _ => rfl⟩
  simp only [quantum_cache_get_random, if_pos h]

/-- Witness for C4 at concrete inputs. -/
theorem c4_fallback_constants_w :
    quantum_cache_get_random none 7 = 1 / 2 ∧
      quantum_cache_get_random (some cacheOne) 5 = 1 / 2 ∧
      compute_quantum_phase none 3 11 = 1 :=
  ⟨c4_fallback_constants.1 7,
   c4_fallback_constants.2.1 cacheOne 5 (by decide),
   c4_fallback_constants.2.2 3 11⟩

/-- Claim C5: for every present cache and every pair of 64-bit identifiers,
`computePhase` XORs the two identifiers, swaps the high and low 32-bit
halves of the result, reduces it modulo the cache size, and returns
`getRandom` at that index scaled by 2π (coefficient `2 * value` of π in
this embedding); the index agrees with the spec's formula
`spec_phase_index`. -/
theorem c5_computePhase_formula (c : quantum_cache)
    (circuit_id packet_hash : ℕ)
    (ha : circuit_id < 2 ^ 64) (hb : packet_hash < 2 ^ 64) :
    compute_quantum_phase (some c) circuit_id packet_hash =
      2 * quantum_cache_get_random (some c)
        (spec_phase_index circuit_id packet_hash c.size) := by
  have hx : circuit_id ^^^ packet_hash < 2 ^ 64 := Nat.xor_lt_two_pow ha hb
  simp only [compute_quantum_phase, Nat.mod_eq_of_lt ha, Nat.mod_eq_of_lt hb,
    rotate32_eq_spec _ hx]
  rfl

/-- Witness for C5 at concrete inputs. -/
theorem c5_computePhase_formula_w :
    compute_quantum_phase (some cacheOne) 3 5 =
      2 * quantum_cache_get_random (some cacheOne) (spec_phase_index 3 5 cacheOne.size) :=
  c5_computePhase_formula cacheOne 3 5 (by norm_num) (by norm_num)

/-- Claim C7: `computePhase` is symmetric in its two identifiers, for every
cache state — the combined value is the XOR of the two arguments, and XOR
is commutative, so the literal rotation-and-mod index, and with it the
whole phase, coincide. -/
theorem c7_computePhase_comm (s : CacheState) (a b : ℕ) :
    compute_quantum_phase s a b = compute_quantum_phase s b a := by
  cases s with
  | none => rfl
  | some c => simp only [compute_quantum_phase, Nat.xor_comm]

/-- Claim C8: `create` with capacity 0 or above 10_000_000 returns the
invalid-size code -1 and leaves the state exactly as it was; in particular
starting from the absent state no cache becomes present. -/
theorem c8_init_invalid_size (env : CacheEnv) (capacity : ℕ) (s : CacheState)
    (h : capacity = 0 ∨ capacity > 10000000) :
    quantum_cache_init env capacity s = (-1, s) ∧
      (s = none → (quantum_cache_init env capacity s).2 = none) := by
  have he : quantum_cache_init env capacity s = (-1, s) := by
    unfold quantum_cache_init
    rw [if_pos h]
  exact ⟨he, fun hs => by rw [he, hs]⟩

/-- Witness for C8 at both boundary capacities. -/
theorem c8_init_invalid_size_w :
    quantum_cache_init env0 0 none = (-1, none) ∧
      quantum_cache_init env0 10000001 none = (-1, none) :=
  ⟨(c8_init_invalid_size env0 0 none (Or.inl rfl)).1,
   (c8_init_invalid_size env0 10000001 none (Or.inr (by norm_num))).1⟩

/-- Claim C6: on a present cache, `populate` with a non-empty key, a count
in `[1, 10_000_000]` and any sequence of sampled clock values stores at
every index `i < min(count, capacity)` exactly the spec's entropy value:
the key folded by shift-8-or into `K`, then
`E = nanoseconds XOR seconds XOR i XOR K` pushed through the
LCG / xor-fold / LCG pipeline (all mod `2^64`). -/
theorem c6_preload_entropy_formula (env : CacheEnv) (key : List ℕ)
    (count : ℕ) (c : quantum_cache) (i : ℕ)
    (_hkey : key ≠ []) (h1 : 1 ≤ count) (h2 : count ≤ 10000000)
    (hwf : c.seeds.length = c.size) (hi : i < min count c.size) :
    ∃ c', (quantum_cache_preload env (some key) count (some c)).2 = some c' ∧
      c'.seeds.getD i 0 =
        spec_entropy key (env.clock i).1 (env.clock i).2 i := by
  rw [preload_present_eq env key count c h1 h2]
  refine ⟨_, rfl, ?_⟩
  have hlen : i < c.seeds.length := by omega
  rw [writeUpto_getD _ _ 0 i _ hlen]
  simp only [Nat.zero_add]
  rw [if_pos hi]
  rfl

/-- Witness for C6 at concrete inputs. -/
theorem c6_preload_entropy_formula_w :
    ∃ c', (quantum_cache_preload env0 (some [97]) 1 (some ⟨[5], 1, 0⟩)).2 = some c' ∧
      c'.seeds.getD 0 0 =
        spec_entropy [97] (env0.clock 0).1 (env0.clock 0).2 0 :=
  c6_preload_entropy_formula env0 [97] 1 ⟨[5], 1, 0⟩ 0 (by decide) (by decide)
    (by decide) (by decide) (by decide)

/-- Claim C9: in every state reachable by any sequence of the five
operations, a present cache has its size field in `[1, 10_000_000]` and a
seed store of exactly that length, so the `mod capacity` in the phase
derivation is a reduction modulo a positive number. -/
theorem c9_reachable_capacity_bounds (s : CacheState) (h : CacheReachable s) :
    ∀ c : quantum_cache, s = some c →
      1 ≤ c.size ∧ c.size ≤ 10000000 ∧ c.seeds.length = c.size := by
  intro c hc
  have hinv := reachable_invariant s h c hc
  exact ⟨hinv.1, hinv.2.1, hinv.2.2.1⟩

/-- Witness for C9: a concrete reachable present state. -/
theorem c9_reachable_capacity_bounds_w :
    ∃ c : quantum_cache, (quantum_cache_init env0 3 none).2 = some c ∧
      1 ≤ c.size ∧ c.size ≤ 10000000 ∧ c.seeds.length = c.size := by
  have hr : CacheReachable (quantum_cache_init env0 3 none).2 :=
    CacheReachable.step_create none env0 3 CacheReachable.initial
  have h2 : (quantum_cache_init env0 3 none).2 = some ⟨[0, 0, 0], 3, 0⟩ := by
    decide
  exact ⟨_, h2, c9_reachable_capacity_bounds _ hr _ h2⟩

/-- Claim C10: the cursor field (`index` struct member) is set to 0 by
every successful `create`; every reachable present cache has cursor 0; and
`populate` on a present cache never changes the cursor.  (`getRandom` and
`computePhase` are state-readers in this embedding — they return values
without producing a state — so they cannot modify the cursor.) -/
theorem c10_cursor_zero :
    (∀ (env : CacheEnv) (n : ℕ) (s : CacheState) (c' : quantum_cache),
        (quantum_cache_init env n s).1 = 0 →
        (quantum_cache_init env n s).2 = some c' → c'.index = 0) ∧
    (∀ s, CacheReachable s → ∀ c : quantum_cache, s = some c → c.index = 0) ∧
    (∀ (env : CacheEnv) (key : Option (List ℕ)) (count : ℕ)
        (c c' : quantum_cache),
        (quantum_cache_preload env key count (some c)).2 = some c' →
        c'.index = c.index) := by
  refine ⟨?_, ?_, ?_⟩
  · intro env n s c' hret hc'
    rcases quantum_cache_init_shape env n s with ⟨hne, _⟩ | ⟨_, _, heq⟩
    · exact absurd hret hne
    · rw [heq] at hc'
      obtain rfl := Option.some.inj hc'
      rfl
  · intro s h c hc
    exact (reachable_invariant s h c hc).2.2.2
  · intro env key count c c' hc'
    cases key with
    | none => cases Option.some.inj hc'; rfl
    | some k =>
      by_cases hcnt : count = 0 ∨ count > 10000000
      · simp only [quantum_cache_preload, if_pos hcnt] at hc'
        cases Option.some.inj hc'; rfl
      · push_neg at hcnt
        rw [preload_present_eq env k count c (by omega) (by omega)] at hc'
        obtain rfl := Option.some.inj hc'
        rfl

/-- Witness for C10: a successful concrete `create` yields cursor 0. -/
theorem c10_cursor_zero_w :
    ∃ c' : quantum_cache,
      (quantum_cache_init env0 1 none).2 = some c' ∧ c'.index = 0 := by
  have h2 : (quantum_cache_init env0 1 none).2 = some ⟨[0], 1, 0⟩ := by decide
  exact ⟨_, h2, c10_cursor_zero.1 env0 1 none _ (by decide) h2⟩
